import Mathlib

/-!
Shallow embedding of the Battleship repository (battleship/ship.py and
battleship/player.py) and verification of its specification claims.

Python sets are modelled as duplicate-free lists (`setAdd` inserts only
when absent), Python `random.randint(a, b)` as `a + r % (b - a + 1)` for a
supplied roll `r` (with `none` when `b < a`, where Python raises), and the
unbounded `while` loops of the source as fuel-indexed recursions returning
`Option`.  Cells are integer pairs, 1-indexed, as in the source.
-/

abbrev Cell := Int × Int

/-- The inclusive integer interval `[a, b]` as a list, mirroring Python
`range(a, b + 1)`. -/
def intRange (a b : Int) : List Int :=
  (List.range (b + 1 - a).toNat).map (fun (n : Nat) => a + (n : Int))

/-- Python `set.add`: insert an element only when it is absent. -/
def setAdd (l : List Cell) (c : Cell) : List Cell :=
  if c ∈ l then l else c :: l

/-- Python `set.update`: add every element of `adds` to `l`. -/
def setUnion (l adds : List Cell) : List Cell :=
  adds.foldl setAdd l

/-- A ship as in `battleship/ship.py`: normalized endpoint coordinates and
the mutable set of damaged cells. -/
structure Ship where
  x_start : Int
  y_start : Int
  x_end : Int
  y_end : Int
  damaged_cells : List Cell
deriving DecidableEq

/-- The coordinate normalization performed by `Ship.__init__` (min/max on
each axis), with an empty damage set. -/
def mkShipRaw (s e : Cell) : Ship :=
  { x_start := min s.1 e.1
    x_end := max s.1 e.1
    y_start := min s.2 e.2
    y_end := max s.2 e.2
    damaged_cells := [] }

/-- Source `Ship.is_vertical`. -/
def Ship.is_vertical (s : Ship) : Prop := s.x_start = s.x_end

instance (s : Ship) : Decidable s.is_vertical :=
  inferInstanceAs (Decidable (s.x_start = s.x_end))

/-- Source `Ship.is_horizontal`. -/
def Ship.is_horizontal (s : Ship) : Prop := s.y_start = s.y_end

instance (s : Ship) : Decidable s.is_horizontal :=
  inferInstanceAs (Decidable (s.y_start = s.y_end))

/-- Source `Ship.__init__`: normalize, then (when `should_validate`) raise
`ValueError` — modelled as `none` — unless the ship is horizontal or
vertical. -/
def Ship.init (s e : Cell) (should_validate : Bool) : Option Ship :=
  let sh := mkShipRaw s e
  if should_validate ∧ ¬sh.is_horizontal ∧ ¬sh.is_vertical then none
  else some sh

/-- Source `Ship.get_cells`, including the dead reversed-range branches of the
source. -/
def Ship.get_cells (s : Ship) : List Cell :=
  if s.is_horizontal then
    if s.x_start > s.x_end then (intRange s.x_end s.x_start).map (fun i => (i, s.y_start))
    else (intRange s.x_start s.x_end).map (fun i => (i, s.y_start))
  else
    if s.y_start > s.y_end then (intRange s.y_end s.y_start).map (fun i => (s.x_start, i))
    else (intRange s.y_start s.y_end).map (fun i => (s.x_start, i))

/-- Source `Ship.length`. -/
def Ship.length (s : Ship) : Int :=
  if s.is_horizontal then |s.x_end - s.x_start| + 1
  else |s.y_start - s.y_end| + 1

/-- Source `Ship.is_occupying_cell`. -/
def Ship.is_occupying_cell (s : Ship) (c : Cell) : Prop := c ∈ s.get_cells

instance (s : Ship) (c : Cell) : Decidable (s.is_occupying_cell c) :=
  inferInstanceAs (Decidable (c ∈ s.get_cells))

/-- Source `Ship.receive_damage`: the updated ship together with the returned
boolean. -/
def Ship.receive_damage (s : Ship) (c : Cell) : Ship × Bool :=
  if s.is_occupying_cell c then
    ({ s with damaged_cells := setAdd s.damaged_cells c }, true)
  else (s, false)

/-- Source `Ship.has_sunk`: every occupied cell is damaged. -/
def Ship.has_sunk (s : Ship) : Prop :=
  ∀ c ∈ s.get_cells, c ∈ s.damaged_cells

instance (s : Ship) : Decidable s.has_sunk :=
  inferInstanceAs (Decidable (∀ c ∈ s.get_cells, c ∈ s.damaged_cells))

/-- Source `Ship.is_near_cell`: the bounding-box-expanded-by-one test. -/
def Ship.is_near_cell (s : Ship) (c : Cell) : Prop :=
  s.x_start - 1 ≤ c.1 ∧ c.1 ≤ s.x_end + 1 ∧ s.y_start - 1 ≤ c.2 ∧ c.2 ≤ s.y_end + 1

instance (s : Ship) (c : Cell) : Decidable (s.is_near_cell c) :=
  inferInstanceAs (Decidable (_ ∧ _ ∧ _ ∧ _))

/-- Source `Ship.is_near_ship`: some cell of the other ship is near this one. -/
def Ship.is_near_ship (s other : Ship) : Prop :=
  ∃ c ∈ other.get_cells, s.is_near_cell c

instance (s other : Ship) : Decidable (s.is_near_ship other) :=
  inferInstanceAs (Decidable (∃ c ∈ other.get_cells, s.is_near_cell c))

/-- The `ShipFactory` state: board size, the forbidden-cell set and the
length-to-count specification (a Python dict in insertion order). -/
structure ShipFactory where
  board_size : Int × Int
  forbidden_cells : List Cell
  ships_per_length : List (Int × Nat)
deriving DecidableEq

/-- Python `random.randint(a, b)` driven by a roll `r`: any value of
`[a, b]` is reachable and nothing outside it; `none` models the
`ValueError` raised when `b < a`. -/
def randint (a b : Int) (r : Nat) : Option Int :=
  if b < a then none else some (a + (r : Int) % (b - a + 1))

/-- Source `ShipFactory.create_ship_input`: assemble start and end cells from the
sampled direction and coordinates. -/
def create_ship_input (length : Int) (direction : Nat) (sc oc : Int) :
    Cell × Cell :=
  if direction = 0 then ((sc, oc), (sc + length - 1, oc))
  else ((oc, sc), (oc, sc + length - 1))

/-- Source `ShipFactory.update_forbidden_cells`: add the ship's cells, then the
hand-rolled halo rows/columns.  The clip constants `10` and `11` are
hard-coded in the source irrespective of `board_size`. -/
def ShipFactory.update_forbidden_cells (f : ShipFactory) (s : Ship) :
    ShipFactory :=
  let base := setUnion f.forbidden_cells s.get_cells
  let add_set : List Cell :=
    if s.is_horizontal then
      (intRange (max (s.x_start - 1) 1) (min 11 (s.x_end + 2) - 1)).flatMap
        (fun x => [(x, max 1 (s.y_start - 1)), (x, min 10 (s.y_end + 1)), (x, s.y_start)])
    else
      (intRange (max (s.y_start - 1) 1) (min 11 (s.y_end + 2) - 1)).flatMap
        (fun y => [(max 1 (s.x_start - 1), y), (min 10 (s.x_end + 1), y), (s.x_start, y)])
  { f with forbidden_cells := setUnion base add_set }

/-- Source `ShipFactory.create_ship`: rejection sampling with an explicit fuel
bound standing for the source's unbounded `while` loop (`none` when the
fuel or the roll stream runs out, or when `randint` fails). -/
def ShipFactory.create_ship (f : ShipFactory) (length : Int) :
    Nat → List Nat → Option (Ship × ShipFactory × List Nat)
  | 0, _ => none
  | _ + 1, [] => none
  | _ + 1, [_] => none
  | _ + 1, [_, _] => none
  | fuel + 1, r1 :: r2 :: r3 :: rest =>
    let direction := r1 % 2
    let dimAlong := if direction = 0 then f.board_size.1 else f.board_size.2
    let dimOther := if direction = 0 then f.board_size.2 else f.board_size.1
    match randint 1 (dimAlong - length + 1) r2, randint 1 dimOther r3 with
    | some sc, some oc =>
      let se := create_ship_input length direction sc oc
      match Ship.init se.1 se.2 true with
      | some ship =>
        if ∃ c ∈ ship.get_cells, c ∈ f.forbidden_cells then
          f.create_ship length fuel rest
        else some (ship, f.update_forbidden_cells ship, rest)
      | none => none
    | _, _ => none

/-- The inner `for i in range(count)` loop of `ShipFactory.generate_ships`:
place `count` ships of the given length. -/
def ShipFactory.create_count (f : ShipFactory) (length : Int) :
    Nat → Nat → List Nat → Option (List Ship × ShipFactory × List Nat)
  | 0, _, stream => some ([], f, stream)
  | count + 1, fuel, stream =>
    match f.create_ship length fuel stream with
    | some (ship, f', rest) =>
      match f'.create_count length count fuel rest with
      | some (ships, f'', rest') => some (ship :: ships, f'', rest')
      | none => none
    | none => none

/-- The outer loop of `ShipFactory.generate_ships` over the
specification's (length, count) items. -/
def ShipFactory.generate_spec (f : ShipFactory) :
    List (Int × Nat) → Nat → List Nat → Option (List Ship × ShipFactory × List Nat)
  | [], _, stream => some ([], f, stream)
  | (length, count) :: spec, fuel, stream =>
    match f.create_count length count fuel stream with
    | some (ships, f', rest) =>
      match f'.generate_spec spec fuel rest with
      | some (ships', f'', rest') => some (ships ++ ships', f'', rest')
      | none => none
    | none => none

/-- Source `ShipFactory.generate_ships`. -/
def ShipFactory.generate_ships (f : ShipFactory) (fuel : Nat)
    (stream : List Nat) : Option (List Ship × List Nat) :=
  match f.generate_spec f.ships_per_length fuel stream with
  | some (ships, _, rest) => some (ships, rest)
  | none => none

/-- Cell within the `w × h` grid. -/
def inBoard (w h : Int) (c : Cell) : Prop :=
  1 ≤ c.1 ∧ c.1 ≤ w ∧ 1 ≤ c.2 ∧ c.2 ≤ h

instance (w h : Int) (c : Cell) : Decidable (inBoard w h c) :=
  inferInstanceAs (Decidable (_ ∧ _ ∧ _ ∧ _))

/-- A normalized, axis-aligned ship lying inside the `w × h` grid — the
shape of every ship `ShipFactory.create_ship` accepts for a positive
length. -/
def GoodShip (w h : Int) (s : Ship) : Prop :=
  s.x_start ≤ s.x_end ∧ s.y_start ≤ s.y_end ∧
  (s.x_start = s.x_end ∨ s.y_start = s.y_end) ∧
  1 ≤ s.x_start ∧ s.x_end ≤ w ∧ 1 ≤ s.y_start ∧ s.y_end ≤ h

instance (w h : Int) (s : Ship) : Decidable (GoodShip w h s) :=
  inferInstanceAs (Decidable (_ ∧ _ ∧ _ ∧ _ ∧ _ ∧ _ ∧ _))

/-- A ship whose occupied cells, and whose whole in-board halo, are
already forbidden: no later accepted ship can overlap or touch it. -/
def ProtectedShip (w h : Int) (a : Ship) (fb : List Cell) : Prop :=
  (∀ c ∈ a.get_cells, c ∈ fb) ∧
  (∀ c : Cell, inBoard w h c → a.is_near_cell c → c ∈ fb)

/-- Modelled from the spec: the halo of a ship for a given board size —
its bounding box expanded by one cell in every direction (including
diagonals), clipped to the grid bounds.  (`board.py` is absent from src;
this definition follows §4.2/§GLOSSARY of the spec.) -/
def spec_halo (w h : Int) (s : Ship) : List Cell :=
  (intRange (max 1 (s.x_start - 1)) (min w (s.x_end + 1))).flatMap
    (fun x => (intRange (max 1 (s.y_start - 1)) (min h (s.y_end + 1))).map (fun y => (x, y)))

/-- Separation of two ships: disjoint occupied cells and not near in
either direction. -/
def ShipSep (a b : Ship) : Prop :=
  (∀ c ∈ a.get_cells, c ∉ b.get_cells) ∧ ¬a.is_near_ship b ∧ ¬b.is_near_ship a

instance (a b : Ship) : Decidable (ShipSep a b) :=
  inferInstanceAs (Decidable (_ ∧ _ ∧ _))

/-- Modelled from the spec: `Board.validateFleet` (`board.py` is absent
from src) raises no error exactly when the fleet's ships are pairwise
disjoint and pairwise non-adjacent. -/
def validateFleet (ships : List Ship) : Prop :=
  List.Pairwise ShipSep ships

instance (ships : List Ship) : Decidable (validateFleet ships) :=
  inferInstanceAs (Decidable (List.Pairwise ShipSep ships))

/-- The generation invariant: every placed ship is well-shaped and
protected by the forbidden set, and the placed ships are pairwise
separated. -/
def GenInv (w h : Int) (ships : List Ship) (fb : List Cell) : Prop :=
  (∀ a ∈ ships, GoodShip w h a ∧ ProtectedShip w h a fb) ∧
  List.Pairwise ShipSep ships


/-- The four probing directions used (as strings) by `AutomaticPlayer`. -/
inductive Direction where
  | left
  | right
  | up
  | down
deriving DecidableEq

/-- The fixed priority order of `possibe_moves_from_*` dict keys. -/
def dirOrder : List Direction := [.left, .right, .up, .down]

/-- Source `move_left` / `move_right` / `move_up` / `move_down` of
`AutomaticPlayer`, indexed by direction. -/
def moveDir : Direction → Cell → Cell
  | .left, c => (c.1 - 1, c.2)
  | .right, c => (c.1 + 1, c.2)
  | .up, c => (c.1, c.2 - 1)
  | .down, c => (c.1, c.2 + 1)

/-- Source `AutomaticPlayer.opposite_direction` (its final `else` maps anything
that is not left/right/up to up). -/
def opposite_direction : Direction → Direction
  | .left => .right
  | .right => .left
  | .up => .down
  | .down => .up

/-- The mutable attributes of `AutomaticPlayer`, plus its board's width
and height.  `board.py` is absent from src; per the spec a default board
is 10 × 10, and only its dimensions are consulted by the player. -/
structure AutomaticPlayer where
  board_width : Int
  board_height : Int
  unsuccessful_directions : List (Option Direction)
  tracker : List Cell
  prev_result : Bool × Bool
  target : Option Cell
  prev_move : Option Cell
  direction : Option Direction
deriving DecidableEq

/-- A fresh `AutomaticPlayer` as built by `__init__`. -/
def AutomaticPlayer.init (w h : Int) : AutomaticPlayer :=
  { board_width := w
    board_height := h
    unsuccessful_directions := []
    tracker := []
    prev_result := (false, false)
    target := none
    prev_move := none
    direction := none }

/-- Source `AutomaticPlayer.is_valid`: not yet attacked and within the board. -/
def AutomaticPlayer.is_valid (p : AutomaticPlayer) (c : Cell) : Prop :=
  c ∉ p.tracker ∧ 1 ≤ c.1 ∧ c.1 ≤ p.board_width ∧ 1 ≤ c.2 ∧ c.2 ≤ p.board_height

instance (p : AutomaticPlayer) (c : Cell) : Decidable (p.is_valid c) :=
  inferInstanceAs (Decidable (_ ∧ _ ∧ _ ∧ _ ∧ _))

/-- Source `AutomaticPlayer.get_random_coordinates` driven by two rolls (the
image of `randint(1, w) × randint(1, h)` for positive dimensions). -/
def get_random_coordinates (w h : Int) (r1 r2 : Nat) : Cell :=
  (1 + (r1 : Int) % w, 1 + (r2 : Int) % h)

/-- Source `AutomaticPlayer.generate_random_target`: draw coordinates until the
cell has not been attacked; the roll stream doubles as fuel. -/
def generate_random_target (w h : Int) (tracker : List Cell) :
    List Nat → Option (Cell × List Nat)
  | r1 :: r2 :: rest =>
    let c := get_random_coordinates w h r1 r2
    if c ∈ tracker then generate_random_target w h tracker rest
    else some (c, rest)
  | _ => none

/-- The `for direction in [left, right, up, down]` scans of
`select_target`: skip directions in `skip`, return the first whose step
from `pivot` is valid (`skip` is `[]` for the first-probe scan). -/
def scanDirs (p : AutomaticPlayer) (skip : List (Option Direction))
    (pivot : Cell) : List Direction → Option (Direction × Cell)
  | [] => none
  | d :: ds =>
    if some d ∈ skip then scanDirs p skip pivot ds
    else if p.is_valid (moveDir d pivot) then some (d, moveDir d pivot)
    else scanDirs p skip pivot ds

/-- Outcome of one `select_target` call.  `pyNone` is the source falling
off the end of the function and returning Python `None` (with the state
mutations made before that point); `outOfRolls` is an artifact of the
finite roll stream; `pyError` marks paths where the source would raise
(`KeyError`/`TypeError` on a `None` attribute), none of which are
exercised by the claims. -/
inductive SelectOut where
  | ok (c : Cell) (p : AutomaticPlayer) (rest : List Nat)
  | pyNone (p : AutomaticPlayer)
  | outOfRolls
  | pyError
deriving DecidableEq

/-- Source `AutomaticPlayer.select_target`, translated branch by branch from the
source. -/
def AutomaticPlayer.select_target (p : AutomaticPlayer) (stream : List Nat) :
    SelectOut :=
  if p.tracker.isEmpty then
    match generate_random_target p.board_width p.board_height p.tracker stream with
    | some (c, rest) =>
      .ok c { p with prev_move := some c, tracker := setAdd p.tracker c } rest
    | none => .outOfRolls
  else if p.prev_result.2 then
    match generate_random_target p.board_width p.board_height p.tracker stream with
    | some (c, rest) =>
      .ok c { p with unsuccessful_directions := [], target := none,
                     prev_move := some c, tracker := setAdd p.tracker c } rest
    | none => .outOfRolls
  else if p.prev_result.1 then
    match p.target with
    | none =>
      match p.prev_move with
      | none => .pyError
      | some pm =>
        let p1 := { p with target := some pm }
        match scanDirs p [] pm dirOrder with
        | some (d, c) =>
          .ok c { p1 with direction := some d, prev_move := some c,
                          tracker := setAdd p.tracker c } stream
        | none => .pyNone p1
    | some t =>
      match p.prev_move, p.direction with
      | some pm, some d =>
        if p.is_valid (moveDir d pm) then
          .ok (moveDir d pm) { p with prev_move := some (moveDir d pm),
                                      tracker := setAdd p.tracker (moveDir d pm) } stream
        else
          let d' := opposite_direction d
          let c := moveDir d' t
          .ok c { p with direction := some d', prev_move := some c,
                         tracker := setAdd p.tracker c } stream
      | _, _ => .pyError
  else
    match p.target with
    | some t =>
      let unsucc := p.unsuccessful_directions ++ [p.direction]
      let p1 := { p with unsuccessful_directions := unsucc }
      match scanDirs p unsucc t dirOrder with
      | some (d, c) =>
        .ok c { p1 with direction := some d, prev_move := some c,
                        tracker := setAdd p.tracker c } stream
      | none => .pyNone p1
    | none =>
      match generate_random_target p.board_width p.board_height p.tracker stream with
      | some (c, rest) =>
        .ok c { p with prev_move := some c, tracker := setAdd p.tracker c } rest
      | none => .outOfRolls

/-- Source `AutomaticPlayer.receive_result`. -/
def AutomaticPlayer.receive_result (p : AutomaticPlayer)
    (is_ship_hit has_ship_sunk : Bool) : AutomaticPlayer :=
  { p with prev_result := (is_ship_hit, has_ship_sunk) }

/-- The condition under which `select_target` takes the flip branch of
the continue-probe stage (committed direction blocked), the one return
path with no validity check. -/
def flipCase (p : AutomaticPlayer) : Bool :=
  !p.tracker.isEmpty && !p.prev_result.2 && p.prev_result.1 &&
  (match p.target, p.prev_move, p.direction with
   | some _, some pm, some d => !(decide (p.is_valid (moveDir d pm)))
   | _, _, _ => false)

/-- Run a sequence of turns: each entry of the script is the
`(is_ship_hit, has_ship_sunk)` feedback delivered after the selection;
returns the final state, the unused rolls, and the selected cells. -/
def runScript (p : AutomaticPlayer) (stream : List Nat) :
    List (Bool × Bool) → Option (AutomaticPlayer × List Nat × List Cell)
  | [] => some (p, stream, [])
  | fb :: fbs =>
    match p.select_target stream with
    | .ok c p' rest =>
      match runScript (p'.receive_result fb.1 fb.2) rest fbs with
      | some (pF, sF, cs) => some (pF, sF, c :: cs)
      | none => none
    | _ => none

/-! ### Concrete states used in the scenario theorems -/

/-- The factory of the C4 counterexample: an 11 × 11 board. -/
def f_c4 : ShipFactory := ⟨(11, 11), [], []⟩

/-- A length-1 ship at (5,10), legal on an 11 × 11 board. -/
def ship_c4 : Ship := ⟨5, 10, 5, 10, []⟩

/-- C1 start state: the player has just selected and hit (5,5). -/
def c1_st0 : AutomaticPlayer :=
  ⟨10, 10, [], [(5, 5)], (true, false), none, some (5, 5), none⟩

/-- C1 state after the five scripted turns, just before the reset turn. -/
def c1_st5 : AutomaticPlayer :=
  ⟨10, 10, [some .left, some .right, some .up],
   [(5, 7), (5, 6), (5, 4), (6, 5), (4, 5), (5, 5)],
   (true, true), some (5, 5), some (5, 7), some .down⟩

/-- C1 state after the reset turn taken with rolls [0,0]: the random
pick is (1,1). -/
def c1_st6 : AutomaticPlayer :=
  ⟨10, 10, [],
   [(1, 1), (5, 7), (5, 6), (5, 4), (6, 5), (4, 5), (5, 5)],
   (true, true), none, some (1, 1), some .down⟩

/-- C2 counterexample state: anchor (1,5), committed direction right,
with (3,5) already attacked so the committed direction is blocked. -/
def c2_pre : AutomaticPlayer :=
  ⟨10, 10, [], [(2, 5), (1, 5), (3, 5)], (true, false),
   some (1, 5), some (2, 5), some .right⟩

/-- C2 counterexample state after the flip branch returns the
out-of-bounds cell (0,5). -/
def c2_post : AutomaticPlayer :=
  ⟨10, 10, [], [(0, 5), (2, 5), (1, 5), (3, 5)], (true, false),
   some (1, 5), some (0, 5), some .left⟩

/-- C5 counterexample: final state after a sink followed by the reset
turn — `direction` still holds its old value. -/
def c5_end : AutomaticPlayer :=
  ⟨10, 10, [], [(1, 1), (7, 5), (6, 5), (4, 5), (5, 5)], (false, false),
   none, some (1, 1), some .right⟩

/-- C5 witness state: a sink has just been reported. -/
def c5w_pre : AutomaticPlayer :=
  ⟨10, 10, [some .left], [(5, 5)], (true, true),
   some (5, 5), some (5, 5), some .right⟩

/-- C5 witness state after the reset turn. -/
def c5w_post : AutomaticPlayer :=
  ⟨10, 10, [], [(1, 1), (5, 5)], (true, true),
   none, some (1, 1), some .right⟩

/-- C2 witness state: the very first selection with rolls [0,0]. -/
def c2w_post : AutomaticPlayer :=
  ⟨10, 10, [], [(1, 1)], (false, false), none, some (1, 1), none⟩

/-- C10 first scenario: a first hit at the corner (1,1) whose four
axis-neighbours are all invalid. -/
def c10a_pre : AutomaticPlayer :=
  ⟨10, 10, [], [(1, 1), (1, 2), (2, 1)], (true, false),
   none, some (1, 1), none⟩

/-- C10 first scenario after the `None` return: the anchor was set, and
nothing else changed. -/
def c10a_post : AutomaticPlayer :=
  ⟨10, 10, [], [(1, 1), (1, 2), (2, 1)], (true, false),
   some (1, 1), some (1, 1), none⟩

/-- C10 second scenario: a miss while the anchor (1,1) is set and every
non-exhausted direction from it is invalid. -/
def c10b_pre : AutomaticPlayer :=
  ⟨10, 10, [], [(1, 2), (1, 1), (2, 1)], (false, false),
   some (1, 1), some (1, 2), some .down⟩

/-- C10 second scenario after the `None` return: the failed direction
was appended, and nothing else changed. -/
def c10b_post : AutomaticPlayer :=
  ⟨10, 10, [some .down], [(1, 2), (1, 1), (2, 1)], (false, false),
   some (1, 1), some (1, 2), some .down⟩

/-! ### Helper lemmas about the list-set and range primitives -/

theorem mem_intRange {a b x : Int} : x ∈ intRange a b ↔ a ≤ x ∧ x ≤ b := by
  simp only [intRange, List.mem_map, List.mem_range]
  constructor
  · rintro ⟨i, hi, rfl⟩
    omega
  · rintro ⟨h1, h2⟩
    exact ⟨(x - a).toNat, by omega, by omega⟩

theorem length_intRange (a b : Int) :
    (intRange a b).length = (b + 1 - a).toNat := by
  rw [intRange, List.length_map, List.length_range]

theorem mem_setAdd {l : List Cell} {c x : Cell} :
    x ∈ setAdd l c ↔ x = c ∨ x ∈ l := by
  unfold setAdd
  split
  · constructor
    · exact fun h => Or.inr h
    · rintro (rfl | h) <;> assumption
  · simp [List.mem_cons]

theorem setAdd_of_mem {l : List Cell} {c : Cell} (h : c ∈ l) :
    setAdd l c = l := by
  unfold setAdd
  exact if_pos h

theorem mem_setUnion {adds : List Cell} :
    ∀ {l : List Cell} {x : Cell}, x ∈ setUnion l adds ↔ x ∈ l ∨ x ∈ adds := by
  induction adds with
  | nil => simp [setUnion]
  | cons a t ih =>
    intro l x
    have hstep : setUnion l (a :: t) = setUnion (setAdd l a) t := rfl
    rw [hstep, ih, mem_setAdd]
    simp only [List.mem_cons]
    tauto

/-! ### Helper lemmas about ship geometry -/

/-- Changing only the damage set leaves `get_cells` unchanged. -/
theorem get_cells_damage_irrel (s : Ship) (dm : List Cell) :
    Ship.get_cells { s with damaged_cells := dm } = s.get_cells := rfl

/-- Membership in `get_cells` of a normalized axis-aligned ship is
membership in its (degenerate) bounding box. -/
theorem mem_get_cells {s : Ship} (hx : s.x_start ≤ s.x_end)
    (hy : s.y_start ≤ s.y_end)
    (hal : s.x_start = s.x_end ∨ s.y_start = s.y_end) (c : Cell) :
    c ∈ s.get_cells ↔
      s.x_start ≤ c.1 ∧ c.1 ≤ s.x_end ∧ s.y_start ≤ c.2 ∧ c.2 ≤ s.y_end := by
  obtain ⟨cx, cy⟩ := c
  unfold Ship.get_cells
  by_cases h : s.is_horizontal
  · rw [if_pos h, if_neg (by omega)]
    unfold Ship.is_horizontal at h
    simp only [List.mem_map, mem_intRange, Prod.mk.injEq]
    constructor
    · rintro ⟨i, hi, rfl, rfl⟩
      omega
    · rintro ⟨h1, h2, h3, h4⟩
      exact ⟨cx, by omega, rfl, by omega⟩
  · rw [if_neg h]
    unfold Ship.is_horizontal at h
    have hv : s.x_start = s.x_end := by tauto
    rw [if_neg (by omega)]
    simp only [List.mem_map, mem_intRange, Prod.mk.injEq]
    constructor
    · rintro ⟨i, hi, rfl, rfl⟩
      omega
    · rintro ⟨h1, h2, h3, h4⟩
      exact ⟨cy, by omega, by omega, rfl⟩

/-! ### Claims C7, C8, C9: Ship damage, constructor and occupied cells -/

/-- C7: `receive_damage` returns true and adds the cell to
`damaged_cells` iff the ship occupies the cell, returns false with no
mutation otherwise, and is idempotent: a repeated call changes neither
`damaged_cells` nor `has_sunk`. -/
theorem C7_receive_damage_iff_idempotent (s : Ship) (c : Cell) :
    ((s.receive_damage c).2 = true ↔ c ∈ s.get_cells) ∧
    (∀ x : Cell, x ∈ (s.receive_damage c).1.damaged_cells ↔
       (x ∈ s.damaged_cells ∨ (x = c ∧ c ∈ s.get_cells))) ∧
    ((s.receive_damage c).2 = false → (s.receive_damage c).1 = s) ∧
    ((s.receive_damage c).1.receive_damage c).1.damaged_cells
        = (s.receive_damage c).1.damaged_cells ∧
    (((s.receive_damage c).1.receive_damage c).1.has_sunk ↔
        (s.receive_damage c).1.has_sunk) := by
  by_cases h : s.is_occupying_cell c
  · have hc : c ∈ s.get_cells := h
    have e1 : s.receive_damage c
        = ({ s with damaged_cells := setAdd s.damaged_cells c }, true) := by
      unfold Ship.receive_damage
      rw [if_pos h]
    have h2 : Ship.is_occupying_cell
        { s with damaged_cells := setAdd s.damaged_cells c } c := h
    have e2 : Ship.receive_damage
          { s with damaged_cells := setAdd s.damaged_cells c } c
        = ({ s with damaged_cells := setAdd (setAdd s.damaged_cells c) c },
           true) := by
      unfold Ship.receive_damage
      rw [if_pos h2]
    have e3 : setAdd (setAdd s.damaged_cells c) c = setAdd s.damaged_cells c :=
      setAdd_of_mem (mem_setAdd.mpr (Or.inl rfl))
    rw [e1]
    refine ⟨by simp [hc], ?_, by simp, ?_, ?_⟩
    · intro x
      simp only [mem_setAdd]
      tauto
    · rw [e2, e3]
    · rw [e2, e3]
  · have hc : c ∉ s.get_cells := h
    have e1 : s.receive_damage c = (s, false) := by
      unfold Ship.receive_damage
      rw [if_neg h]
    rw [e1]
    refine ⟨by simp [hc], ?_, by simp, by rw [e1], by rw [e1]⟩
    intro x
    simp [hc]

/-- C7 witness: the theorem instantiated at ship (3,3)–(5,3) and the
occupied cell (4,3). -/
theorem C7_receive_damage_witness :
    ((Ship.receive_damage ⟨3, 3, 5, 3, []⟩ (4, 3)).2 = true
        ↔ (4, 3) ∈ Ship.get_cells ⟨3, 3, 5, 3, []⟩) ∧
    (∀ x : Cell,
        x ∈ (Ship.receive_damage ⟨3, 3, 5, 3, []⟩ (4, 3)).1.damaged_cells ↔
          (x ∈ ([] : List Cell)
            ∨ (x = (4, 3) ∧ (4, 3) ∈ Ship.get_cells ⟨3, 3, 5, 3, []⟩))) ∧
    ((Ship.receive_damage ⟨3, 3, 5, 3, []⟩ (4, 3)).2 = false →
        (Ship.receive_damage ⟨3, 3, 5, 3, []⟩ (4, 3)).1 = ⟨3, 3, 5, 3, []⟩) ∧
    ((Ship.receive_damage ⟨3, 3, 5, 3, []⟩ (4, 3)).1.receive_damage
          (4, 3)).1.damaged_cells
        = (Ship.receive_damage ⟨3, 3, 5, 3, []⟩ (4, 3)).1.damaged_cells ∧
    (((Ship.receive_damage ⟨3, 3, 5, 3, []⟩ (4, 3)).1.receive_damage
          (4, 3)).1.has_sunk ↔
        (Ship.receive_damage ⟨3, 3, 5, 3, []⟩ (4, 3)).1.has_sunk) :=
  C7_receive_damage_iff_idempotent ⟨3, 3, 5, 3, []⟩ (4, 3)

/-- C8: with validation on, the constructor fails exactly when the given
cells are axis-aligned in neither direction; any successful construction
(either validation mode) normalizes the coordinates. -/
theorem C8_constructor_validation (st en : Cell) :
    (Ship.init st en true = none ↔ st.1 ≠ en.1 ∧ st.2 ≠ en.2) ∧
    (∀ (v : Bool) (s : Ship), Ship.init st en v = some s →
        s.x_start = min st.1 en.1 ∧ s.x_end = max st.1 en.1 ∧
        s.y_start = min st.2 en.2 ∧ s.y_end = max st.2 en.2 ∧
        s.x_start ≤ s.x_end ∧ s.y_start ≤ s.y_end) := by
  have e : ∀ v : Bool, Ship.init st en v
      = if v = true ∧ ¬(mkShipRaw st en).is_horizontal
            ∧ ¬(mkShipRaw st en).is_vertical
        then none else some (mkShipRaw st en) := fun _ => rfl
  have hH : (mkShipRaw st en).is_horizontal ↔ st.2 = en.2 := by
    unfold Ship.is_horizontal mkShipRaw
    dsimp only
    omega
  have hV : (mkShipRaw st en).is_vertical ↔ st.1 = en.1 := by
    unfold Ship.is_vertical mkShipRaw
    dsimp only
    omega
  constructor
  · rw [e true]
    by_cases hx : st.1 = en.1
    · rw [if_neg (fun hc => hc.2.2 (hV.mpr hx))]
      simp [hx]
    · by_cases hy : st.2 = en.2
      · rw [if_neg (fun hc => hc.2.1 (hH.mpr hy))]
        simp [hy]
      · rw [if_pos ⟨rfl, fun h => hy (hH.mp h), fun h => hx (hV.mp h)⟩]
        simp [hx, hy]
  · intro v s hs
    rw [e v] at hs
    split at hs
    · exact absurd hs (by simp)
    · have h : mkShipRaw st en = s := by injection hs
      subst h
      refine ⟨rfl, rfl, rfl, rfl, min_le_max, min_le_max⟩

/-- C8 witness: the theorem instantiated at start (3,7), end (3,2),
whose construction succeeds and is normalized. -/
theorem C8_constructor_witness :
    (Ship.init ((3 : Int), (7 : Int)) ((3 : Int), (2 : Int)) true = none ↔
        (((3 : Int), (7 : Int)).1 ≠ ((3 : Int), (2 : Int)).1 ∧
         ((3 : Int), (7 : Int)).2 ≠ ((3 : Int), (2 : Int)).2)) ∧
    ((⟨3, 2, 3, 7, []⟩ : Ship).x_start
        = min ((3 : Int), (7 : Int)).1 ((3 : Int), (2 : Int)).1 ∧
     (⟨3, 2, 3, 7, []⟩ : Ship).x_end
        = max ((3 : Int), (7 : Int)).1 ((3 : Int), (2 : Int)).1 ∧
     (⟨3, 2, 3, 7, []⟩ : Ship).y_start
        = min ((3 : Int), (7 : Int)).2 ((3 : Int), (2 : Int)).2 ∧
     (⟨3, 2, 3, 7, []⟩ : Ship).y_end
        = max ((3 : Int), (7 : Int)).2 ((3 : Int), (2 : Int)).2 ∧
     (⟨3, 2, 3, 7, []⟩ : Ship).x_start ≤ (⟨3, 2, 3, 7, []⟩ : Ship).x_end ∧
     (⟨3, 2, 3, 7, []⟩ : Ship).y_start ≤ (⟨3, 2, 3, 7, []⟩ : Ship).y_end) :=
  ⟨(C8_constructor_validation ((3 : Int), (7 : Int)) ((3 : Int), (2 : Int))).1,
   (C8_constructor_validation ((3 : Int), (7 : Int)) ((3 : Int), (2 : Int))).2
     true ⟨3, 2, 3, 7, []⟩ (by decide)⟩

/-- C9: for any axis-aligned endpoints, `get_cells` is the inclusive
run between the normalized endpoints, it has `max |dx| |dy| + 1`
members, and `length` equals that count. -/
theorem C9_get_cells_count (st en : Cell) (hal : st.1 = en.1 ∨ st.2 = en.2) :
    (∀ c : Cell, c ∈ (mkShipRaw st en).get_cells ↔
        (min st.1 en.1 ≤ c.1 ∧ c.1 ≤ max st.1 en.1 ∧
         min st.2 en.2 ≤ c.2 ∧ c.2 ≤ max st.2 en.2)) ∧
    ((mkShipRaw st en).get_cells.length : Int)
        = max |en.1 - st.1| |en.2 - st.2| + 1 ∧
    (mkShipRaw st en).length = ((mkShipRaw st en).get_cells.length : Int) := by
  have hx : (mkShipRaw st en).x_start ≤ (mkShipRaw st en).x_end := by
    unfold mkShipRaw
    simp only
    omega
  have hy : (mkShipRaw st en).y_start ≤ (mkShipRaw st en).y_end := by
    unfold mkShipRaw
    simp only
    omega
  have hal' : (mkShipRaw st en).x_start = (mkShipRaw st en).x_end
      ∨ (mkShipRaw st en).y_start = (mkShipRaw st en).y_end := by
    unfold mkShipRaw
    simp only
    omega
  have hlen : ((mkShipRaw st en).get_cells.length : Int)
      = max |en.1 - st.1| |en.2 - st.2| + 1 := by
    unfold Ship.get_cells
    by_cases h : (mkShipRaw st en).is_horizontal
    · rw [if_pos h, if_neg (by omega)]
      unfold Ship.is_horizontal at h
      rw [List.length_map, length_intRange]
      unfold mkShipRaw at h ⊢
      simp only at h ⊢
      simp only [Int.abs_eq_natAbs]
      omega
    · rw [if_neg h, if_neg (by omega)]
      unfold Ship.is_horizontal at h
      rw [List.length_map, length_intRange]
      unfold mkShipRaw at h ⊢
      simp only at h ⊢
      simp only [Int.abs_eq_natAbs]
      omega
  refine ⟨?_, hlen, ?_⟩
  · intro c
    rw [mem_get_cells hx hy hal' c]
    unfold mkShipRaw
    simp only
  · rw [hlen]
    unfold Ship.length
    by_cases h : (mkShipRaw st en).is_horizontal
    · rw [if_pos h]
      unfold Ship.is_horizontal at h
      unfold mkShipRaw at h ⊢
      simp only at h ⊢
      simp only [Int.abs_eq_natAbs]
      omega
    · rw [if_neg h]
      unfold Ship.is_horizontal at h
      unfold mkShipRaw at h ⊢
      simp only at h ⊢
      simp only [Int.abs_eq_natAbs]
      omega

/-- C9 witness: the theorem instantiated at the vertical pair
(3,10)–(3,1): ten cells, containing (3,4). -/
theorem C9_get_cells_witness :
    ((3, 4) ∈ (mkShipRaw ((3 : Int), (10 : Int)) (3, 1)).get_cells ↔
        (min (3 : Int) 3 ≤ 3 ∧ (3 : Int) ≤ max 3 3 ∧
         min (10 : Int) 1 ≤ 4 ∧ (4 : Int) ≤ max 10 1)) ∧
    ((mkShipRaw ((3 : Int), (10 : Int)) (3, 1)).get_cells.length : Int)
        = max |(3 : Int) - 3| |(1 : Int) - 10| + 1 := by
  have h := C9_get_cells_count ((3 : Int), (10 : Int)) (3, 1) (Or.inl rfl)
  exact ⟨h.1 (3, 4), h.2.1⟩

/-! ### Claim C4: the forbidden-cell halo -/

theorem mem_flatMap_rowTriple {lo hi y1 y2 y3 : Int} {c : Cell} :
    c ∈ (intRange lo hi).flatMap
        (fun x => [(x, y1), (x, y2), (x, y3)]) ↔
      lo ≤ c.1 ∧ c.1 ≤ hi ∧ (c.2 = y1 ∨ c.2 = y2 ∨ c.2 = y3) := by
  obtain ⟨c1, c2⟩ := c
  simp only [List.mem_flatMap, mem_intRange, List.mem_cons,
    List.not_mem_nil, or_false, Prod.mk.injEq]
  constructor
  · rintro ⟨x, hx, (⟨rfl, rfl⟩ | ⟨rfl, rfl⟩ | ⟨rfl, rfl⟩)⟩ <;> tauto
  · rintro ⟨ha, hb, hy⟩
    exact ⟨c1, ⟨ha, hb⟩, by tauto⟩

theorem mem_flatMap_colTriple {lo hi x1 x2 x3 : Int} {c : Cell} :
    c ∈ (intRange lo hi).flatMap
        (fun y => [(x1, y), (x2, y), (x3, y)]) ↔
      lo ≤ c.2 ∧ c.2 ≤ hi ∧ (c.1 = x1 ∨ c.1 = x2 ∨ c.1 = x3) := by
  obtain ⟨c1, c2⟩ := c
  simp only [List.mem_flatMap, mem_intRange, List.mem_cons,
    List.not_mem_nil, or_false, Prod.mk.injEq]
  constructor
  · rintro ⟨y, hy, (⟨rfl, rfl⟩ | ⟨rfl, rfl⟩ | ⟨rfl, rfl⟩)⟩ <;> tauto
  · rintro ⟨ha, hb, hx⟩
    exact ⟨c2, ⟨ha, hb⟩, by tauto⟩

theorem mem_spec_halo {w h : Int} {s : Ship} {c : Cell} :
    c ∈ spec_halo w h s ↔
      max 1 (s.x_start - 1) ≤ c.1 ∧ c.1 ≤ min w (s.x_end + 1) ∧
      max 1 (s.y_start - 1) ≤ c.2 ∧ c.2 ≤ min h (s.y_end + 1) := by
  obtain ⟨c1, c2⟩ := c
  simp only [spec_halo, List.mem_flatMap, List.mem_map, mem_intRange,
    Prod.mk.injEq]
  constructor
  · rintro ⟨x, hx, y, hy, rfl, rfl⟩
    exact ⟨hx.1, hx.2, hy.1, hy.2⟩
  · rintro ⟨a1, a2, a3, a4⟩
    exact ⟨c1, ⟨a1, a2⟩, c2, ⟨a3, a4⟩, rfl, rfl⟩

/-- C4 (amended): on the default 10 × 10 board, for every in-bounds
accepted ship the updated forbidden set is exactly the old one plus the
ship's cells plus its clipped halo; on other board sizes the hard-coded
clip constants make this fail (see the counterexample). -/
theorem C4_update_forbidden_halo (f : ShipFactory) (s : Ship)
    (hb : f.board_size = (10, 10)) (hgs : GoodShip 10 10 s) :
    ∀ c : Cell, c ∈ (f.update_forbidden_cells s).forbidden_cells ↔
      c ∈ f.forbidden_cells ∨ c ∈ s.get_cells ∨ c ∈ spec_halo 10 10 s := by
  obtain ⟨h1, h2, hal, h3, h4, h5, h6⟩ := hgs
  intro c
  have e : (f.update_forbidden_cells s).forbidden_cells
      = setUnion (setUnion f.forbidden_cells s.get_cells)
          (if s.is_horizontal then
            (intRange (max (s.x_start - 1) 1) (min 11 (s.x_end + 2) - 1)).flatMap
              (fun x => [(x, max 1 (s.y_start - 1)), (x, min 10 (s.y_end + 1)),
                         (x, s.y_start)])
          else
            (intRange (max (s.y_start - 1) 1) (min 11 (s.y_end + 2) - 1)).flatMap
              (fun y => [(max 1 (s.x_start - 1), y), (min 10 (s.x_end + 1), y),
                         (s.x_start, y)])) := rfl
  rw [e, mem_setUnion, mem_setUnion]
  by_cases hH : s.is_horizontal
  · rw [if_pos hH]
    unfold Ship.is_horizontal at hH
    have key : c ∈ (intRange (max (s.x_start - 1) 1)
          (min 11 (s.x_end + 2) - 1)).flatMap
            (fun x => [(x, max 1 (s.y_start - 1)), (x, min 10 (s.y_end + 1)),
                       (x, s.y_start)]) ↔ c ∈ spec_halo 10 10 s := by
      rw [mem_flatMap_rowTriple, mem_spec_halo]
      omega
    rw [key]
    tauto
  · rw [if_neg hH]
    unfold Ship.is_horizontal at hH
    have hV : s.x_start = s.x_end := by tauto
    have key : c ∈ (intRange (max (s.y_start - 1) 1)
          (min 11 (s.y_end + 2) - 1)).flatMap
            (fun y => [(max 1 (s.x_start - 1), y), (min 10 (s.x_end + 1), y),
                       (s.x_start, y)]) ↔ c ∈ spec_halo 10 10 s := by
      rw [mem_flatMap_colTriple, mem_spec_halo]
      omega
    rw [key]
    tauto

/-- C4 counterexample: on an 11 × 11 board the in-bounds length-1 ship at
(5,10) has (5,11) in its clipped halo, yet the source's
`update_forbidden_cells` (clipping at the hard-coded 10/11) does not add
it, so the forbidden set is not the occupied cells plus the full clipped
halo for that board size. -/
theorem C4_halo_missing_cex :
    GoodShip 11 11 ship_c4 ∧
    ((5, 11) : Cell) ∈ spec_halo 11 11 ship_c4 ∧
    ((5, 11) : Cell) ∉ (f_c4.update_forbidden_cells ship_c4).forbidden_cells := by
  decide

/-- C4 witness: the amended theorem applied to the ship (3,3)–(5,3) on
the default board, evaluated at the halo cell (2,2). -/
theorem C4_update_forbidden_witness :
    ((2, 2) : Cell) ∈
        (ShipFactory.update_forbidden_cells ⟨(10, 10), [], []⟩
          ⟨3, 3, 5, 3, []⟩).forbidden_cells ↔
      (((2, 2) : Cell) ∈ ([] : List Cell) ∨
       ((2, 2) : Cell) ∈ Ship.get_cells ⟨3, 3, 5, 3, []⟩ ∨
       ((2, 2) : Cell) ∈ spec_halo 10 10 ⟨3, 3, 5, 3, []⟩) :=
  C4_update_forbidden_halo ⟨(10, 10), [], []⟩ ⟨3, 3, 5, 3, []⟩ rfl
    (by decide) (2, 2)

/-! ### Helper lemmas about the automated player's random and scan
primitives -/

theorem grt_spec {w h : Int} {tr : List Cell} :
    ∀ (stream : List Nat) {c : Cell} {rest : List Nat},
      generate_random_target w h tr stream = some (c, rest) →
      c ∉ tr ∧ (0 < w → 0 < h → 1 ≤ c.1 ∧ c.1 ≤ w ∧ 1 ≤ c.2 ∧ c.2 ≤ h) := by
  have key : ∀ (n : Nat) (stream : List Nat), stream.length ≤ n →
      ∀ {c : Cell} {rest : List Nat},
        generate_random_target w h tr stream = some (c, rest) →
        c ∉ tr ∧ (0 < w → 0 < h → 1 ≤ c.1 ∧ c.1 ≤ w ∧ 1 ≤ c.2 ∧ c.2 ≤ h) := by
    intro n
    induction n with
    | zero =>
      intro stream hlen c rest hgen
      have hnil : stream = [] := List.length_eq_zero.mp (Nat.le_zero.mp hlen)
      subst hnil
      simp [generate_random_target] at hgen
    | succ n ih =>
      intro stream hlen c rest hgen
      match stream with
      | [] => simp [generate_random_target] at hgen
      | [r1] => simp [generate_random_target] at hgen
      | r1 :: r2 :: rest' =>
        rw [show generate_random_target w h tr (r1 :: r2 :: rest')
            = (if get_random_coordinates w h r1 r2 ∈ tr
               then generate_random_target w h tr rest'
               else some (get_random_coordinates w h r1 r2, rest')) from rfl]
          at hgen
        by_cases hm : get_random_coordinates w h r1 r2 ∈ tr
        · rw [if_pos hm] at hgen
          exact ih rest' (by simp at hlen; omega) hgen
        · rw [if_neg hm] at hgen
          simp only [Option.some.injEq, Prod.mk.injEq] at hgen
          obtain ⟨h1, -⟩ := hgen
          subst h1
          refine ⟨hm, fun hw hh => ?_⟩
          have e1 : 0 ≤ (r1 : Int) % w := Int.emod_nonneg _ (by omega)
          have e2 : (r1 : Int) % w < w := Int.emod_lt_of_pos _ hw
          have e3 : 0 ≤ (r2 : Int) % h := Int.emod_nonneg _ (by omega)
          have e4 : (r2 : Int) % h < h := Int.emod_lt_of_pos _ hh
          refine ⟨?_, ?_, ?_, ?_⟩ <;> · simp only [get_random_coordinates]; omega
  exact fun stream => key stream.length stream le_rfl

/-- The reset branch taken by `select_target` right after a sink. -/
theorem select_target_reset_eq (p : AutomaticPlayer) (stream : List Nat)
    (hne : p.tracker ≠ []) (hsunk : p.prev_result.2 = true) :
    p.select_target stream
      = match generate_random_target p.board_width p.board_height
            p.tracker stream with
        | some (c, rest) =>
          SelectOut.ok c
            { p with unsuccessful_directions := [], target := none,
                     prev_move := some c, tracker := setAdd p.tracker c } rest
        | none => SelectOut.outOfRolls := by
  unfold AutomaticPlayer.select_target
  rw [if_neg (by simp [List.isEmpty_iff, hne]), if_pos hsunk]

/-! ### Claims C1, C2 (counterexample), C5, C10 on the automated player -/

/-- C1: from the state where the player has just hit (5,5), the
selections are (4,5), (6,5), (5,4), (5,6), (5,7) under the scripted
miss/hit feedback, and after the sink the next selection is a fresh
random cell with the anchor and the exhausted-direction set cleared
(Hunting). -/
theorem C1_hunt_target_walkthrough :
    runScript c1_st0 []
        [(false, false), (false, false), (false, false), (true, false),
         (true, true)]
      = some (c1_st5, [], [(4, 5), (6, 5), (5, 4), (5, 6), (5, 7)]) ∧
    (∀ (stream : List Nat) (c : Cell) (p' : AutomaticPlayer)
        (rest : List Nat),
        c1_st5.select_target stream = SelectOut.ok c p' rest →
          c ∉ c1_st5.tracker ∧ p'.target = none ∧
          p'.unsuccessful_directions = []) := by
  refine ⟨by decide, ?_⟩
  intro stream c p' rest h
  rw [select_target_reset_eq c1_st5 stream (by decide) (by decide)] at h
  cases hg : generate_random_target c1_st5.board_width c1_st5.board_height
      c1_st5.tracker stream with
  | none =>
    rw [hg] at h
    exact absurd h (by simp)
  | some pr =>
    obtain ⟨c0, rest0⟩ := pr
    rw [hg] at h
    injection h with h1 h2 h3
    subst h1
    subst h2
    exact ⟨(grt_spec stream hg).1, rfl, rfl⟩

/-- C1 witness: the reset turn taken with rolls [0,0] selects (1,1). -/
theorem C1_hunt_target_witness :
    ((1, 1) : Cell) ∉ c1_st5.tracker ∧
    c1_st6.target = none ∧ c1_st6.unsuccessful_directions = [] :=
  C1_hunt_target_walkthrough.2 [0, 0] (1, 1) c1_st6 [] (by decide)

/-- C2 counterexample: a reachable interaction in which the continue-probe
flip branch returns the out-of-bounds cell (0,5) — the flip path performs
no validity check, so the returned cell is not always in-bounds and
fresh. -/
theorem C2_flip_skips_validity_cex :
    runScript (AutomaticPlayer.init 10 10) [2, 4, 0, 4]
        [(false, false), (true, false), (true, false)]
      = some (c2_pre, [], [(3, 5), (1, 5), (2, 5)]) ∧
    c2_pre.select_target [] = SelectOut.ok (0, 5) c2_post [] ∧
    flipCase c2_pre = true ∧
    ¬inBoard c2_pre.board_width c2_pre.board_height (0, 5) := by
  decide

/-- C5 counterexample: a full game trace through a sink and the following
reset turn; anchor and exhausted directions are cleared, but the
committed `direction` attribute keeps its old value instead of being
cleared to empty. -/
theorem C5_direction_not_cleared_cex :
    runScript (AutomaticPlayer.init 10 10) [4, 4, 0, 0]
        [(true, false), (false, false), (true, false), (true, true),
         (false, false)]
      = some (c5_end, [], [(5, 5), (4, 5), (6, 5), (7, 5), (1, 1)]) ∧
    c5_end.target = none ∧ c5_end.unsuccessful_directions = [] ∧
    c5_end.direction = some Direction.right := by
  decide

/-- C5 (amended): after a sink is reported, the next `select_target`
clears the anchor and the exhausted-direction set and selects a fresh
random in-bounds cell, but the `direction` attribute is not cleared — it
retains its previous value. -/
theorem C5_reset_on_sink (p : AutomaticPlayer) (stream : List Nat)
    (c : Cell) (p' : AutomaticPlayer) (rest : List Nat)
    (hw : 0 < p.board_width) (hh : 0 < p.board_height)
    (hne : p.tracker ≠ []) (hsunk : p.prev_result.2 = true)
    (h : p.select_target stream = SelectOut.ok c p' rest) :
    p'.target = none ∧ p'.unsuccessful_directions = [] ∧
    p'.direction = p.direction ∧
    c ∉ p.tracker ∧ inBoard p.board_width p.board_height c ∧
    p'.tracker = setAdd p.tracker c := by
  rw [select_target_reset_eq p stream hne hsunk] at h
  cases hg : generate_random_target p.board_width p.board_height
      p.tracker stream with
  | none =>
    rw [hg] at h
    exact absurd h (by simp)
  | some pr =>
    obtain ⟨c0, rest0⟩ := pr
    rw [hg] at h
    injection h with h1 h2 h3
    subst h1
    subst h2
    obtain ⟨hmem, hbd⟩ := grt_spec stream hg
    exact ⟨rfl, rfl, rfl, hmem, hbd hw hh, rfl⟩

/-- C5 witness: the amended theorem at a concrete post-sink state with
rolls [0,0]. -/
theorem C5_reset_on_sink_witness :
    c5w_post.target = none ∧ c5w_post.unsuccessful_directions = [] ∧
    c5w_post.direction = c5w_pre.direction ∧
    ((1, 1) : Cell) ∉ c5w_pre.tracker ∧
    inBoard c5w_pre.board_width c5w_pre.board_height (1, 1) ∧
    c5w_post.tracker = setAdd c5w_pre.tracker (1, 1) :=
  C5_reset_on_sink c5w_pre [0, 0] (1, 1) c5w_post [] (by decide) (by decide)
    (by decide) (by decide) (by decide)

/-- C10: there are reachable states in which `select_target` returns
Python `None`: after a first hit whose four axis-neighbours are all
invalid, and after a miss when every non-exhausted direction from the
anchor is invalid; in both cases the tracker is unchanged and no random
fallback happens. -/
theorem C10_select_target_none_reachable :
    runScript (AutomaticPlayer.init 10 10) [1, 0, 0, 1, 0, 0]
        [(false, false), (false, false), (true, false)]
      = some (c10a_pre, [], [(2, 1), (1, 2), (1, 1)]) ∧
    c10a_pre.select_target [] = SelectOut.pyNone c10a_post ∧
    c10a_post.tracker = c10a_pre.tracker ∧
    runScript (AutomaticPlayer.init 10 10) [1, 0, 0, 0]
        [(false, false), (true, false), (false, false)]
      = some (c10b_pre, [], [(2, 1), (1, 1), (1, 2)]) ∧
    c10b_pre.select_target [] = SelectOut.pyNone c10b_post ∧
    c10b_post.tracker = c10b_pre.tracker := by
  decide

/-! ### The forbidden-set update, as an equation and monotonicity facts -/

theorem update_forbidden_eq (f : ShipFactory) (s : Ship) :
    (f.update_forbidden_cells s).forbidden_cells
      = setUnion (setUnion f.forbidden_cells s.get_cells)
          (if s.is_horizontal then
            (intRange (max (s.x_start - 1) 1) (min 11 (s.x_end + 2) - 1)).flatMap
              (fun x => [(x, max 1 (s.y_start - 1)), (x, min 10 (s.y_end + 1)),
                         (x, s.y_start)])
          else
            (intRange (max (s.y_start - 1) 1) (min 11 (s.y_end + 2) - 1)).flatMap
              (fun y => [(max 1 (s.x_start - 1), y), (min 10 (s.x_end + 1), y),
                         (s.x_start, y)])) := rfl

theorem update_forbidden_sub_cells (f : ShipFactory) (s : Ship) {c : Cell}
    (h : c ∈ s.get_cells) :
    c ∈ (f.update_forbidden_cells s).forbidden_cells := by
  rw [update_forbidden_eq, mem_setUnion, mem_setUnion]
  tauto

theorem update_forbidden_mono (f : ShipFactory) (s : Ship) {c : Cell}
    (h : c ∈ f.forbidden_cells) :
    c ∈ (f.update_forbidden_cells s).forbidden_cells := by
  rw [update_forbidden_eq, mem_setUnion, mem_setUnion]
  tauto

theorem update_forbidden_board (f : ShipFactory) (s : Ship) :
    (f.update_forbidden_cells s).board_size = f.board_size := rfl

/-! ### Claim C6: no retry cap in ship generation -/

/-- On a 1 × 1 board, one sampling round for a length-1 ship always
proposes the single cell (1,1): the step either rejects and retries or
accepts that ship. -/
theorem create_ship_step_1x1 (f : ShipFactory) (hb : f.board_size = (1, 1))
    (n r1 r2 r3 : Nat) (rest : List Nat) :
    f.create_ship 1 (n + 1) (r1 :: r2 :: r3 :: rest)
      = if ((1, 1) : Cell) ∈ f.forbidden_cells then f.create_ship 1 n rest
        else some (⟨1, 1, 1, 1, []⟩,
            f.update_forbidden_cells ⟨1, 1, 1, 1, []⟩, rest) := by
  rcases Nat.mod_two_eq_zero_or_one r1 with hr | hr <;>
  · simp only [ShipFactory.create_ship, hb, hr]
    norm_num [randint, Int.emod_one, create_ship_input, Ship.init, mkShipRaw,
      Ship.is_horizontal, Ship.is_vertical, Ship.get_cells, intRange]

/-- Once (1,1) is forbidden on a 1 × 1 board, `create_ship 1` rejects
every sample: no amount of fuel makes the source's `while` loop exit. -/
theorem create_ship_stuck (f : ShipFactory) (hb : f.board_size = (1, 1))
    (h11 : ((1, 1) : Cell) ∈ f.forbidden_cells) :
    ∀ (fuel : Nat) (stream : List Nat), f.create_ship 1 fuel stream = none := by
  intro fuel
  induction fuel with
  | zero => intro stream; rfl
  | succ n ih =>
    intro stream
    match stream with
    | [] => rfl
    | [_] => rfl
    | [_, _] => rfl
    | r1 :: r2 :: r3 :: rest =>
      rw [create_ship_step_1x1 f hb n r1 r2 r3 rest, if_pos h11]
      exact ih rest

/-- Any ship successfully created on a 1 × 1 board leaves a factory that
forbids (1,1) and still has a 1 × 1 board. -/
theorem create_ship_first_1x1 (f : ShipFactory) (hb : f.board_size = (1, 1)) :
    ∀ (fuel : Nat) (stream : List Nat) (s : Ship) (f' : ShipFactory)
      (rest : List Nat),
      f.create_ship 1 fuel stream = some (s, f', rest) →
      ((1, 1) : Cell) ∈ f'.forbidden_cells ∧ f'.board_size = (1, 1) := by
  intro fuel
  induction fuel with
  | zero =>
    intro stream s f' rest h
    exact absurd h (by simp [ShipFactory.create_ship])
  | succ n ih =>
    intro stream s f' rest h
    match stream with
    | [] => exact absurd h (by simp [ShipFactory.create_ship])
    | [_] => exact absurd h (by simp [ShipFactory.create_ship])
    | [_, _] => exact absurd h (by simp [ShipFactory.create_ship])
    | r1 :: r2 :: r3 :: rest' =>
      rw [create_ship_step_1x1 f hb n r1 r2 r3 rest'] at h
      by_cases hf : ((1, 1) : Cell) ∈ f.forbidden_cells
      · rw [if_pos hf] at h
        exact ih rest' s f' rest h
      · rw [if_neg hf] at h
        simp only [Option.some.injEq, Prod.mk.injEq] at h
        obtain ⟨-, h2, -⟩ := h
        subst h2
        refine ⟨?_, hb⟩
        apply update_forbidden_sub_cells
        decide

/-- C6: the source's `create_ship` has no retry cap and there is no
`PlacementExhaustedError`: for the specification `{1: 2}` on a 1 × 1
board, `generate_ships` never returns, whatever fuel and rolls the loop
is given — the second ship is resampled forever. -/
theorem C6_generation_never_terminates (fuel : Nat) (stream : List Nat) :
    ShipFactory.generate_ships ⟨(1, 1), [], [(1, 2)]⟩ fuel stream = none := by
  have e0 : ShipFactory.generate_ships ⟨(1, 1), [], [(1, 2)]⟩ fuel stream
      = match ShipFactory.generate_spec ⟨(1, 1), [], [(1, 2)]⟩ [(1, 2)] fuel
            stream with
        | some (ships, _, rest) => some (ships, rest)
        | none => none := rfl
  have e1 : ShipFactory.generate_spec ⟨(1, 1), [], [(1, 2)]⟩ [(1, 2)] fuel
        stream
      = match ShipFactory.create_count ⟨(1, 1), [], [(1, 2)]⟩ 1 2 fuel
            stream with
        | some (ships, f', rest) =>
          (match ShipFactory.generate_spec f' [] fuel rest with
           | some (ships', f'', rest') => some (ships ++ ships', f'', rest')
           | none => none)
        | none => none := rfl
  have e2 : ShipFactory.create_count ⟨(1, 1), [], [(1, 2)]⟩ 1 2 fuel stream
      = match ShipFactory.create_ship ⟨(1, 1), [], [(1, 2)]⟩ 1 fuel stream with
        | some (ship, f', rest) =>
          (match ShipFactory.create_count f' 1 1 fuel rest with
           | some (ships, f'', rest') => some (ship :: ships, f'', rest')
           | none => none)
        | none => none := rfl
  rw [e0, e1, e2]
  cases hv : ShipFactory.create_ship ⟨(1, 1), [], [(1, 2)]⟩ 1 fuel stream with
  | none => rfl
  | some v1 =>
    obtain ⟨s1, f1, rest1⟩ := v1
    obtain ⟨hf1, hb1⟩ :=
      create_ship_first_1x1 ⟨(1, 1), [], [(1, 2)]⟩ rfl fuel stream s1 f1
        rest1 hv
    have h2 := create_ship_stuck f1 hb1 hf1 fuel rest1
    have e3 : ShipFactory.create_count f1 1 1 fuel rest1
        = match ShipFactory.create_ship f1 1 fuel rest1 with
          | some (ship, f', rest) =>
            (match ShipFactory.create_count f' 1 0 fuel rest with
             | some (ships, f'', rest') => some (ship :: ships, f'', rest')
             | none => none)
          | none => none := rfl
    dsimp only
    rw [e3, h2]

/-! ### Claim C2 (amended): validity of selected cells -/

theorem scanDirs_some {p : AutomaticPlayer} {skip : List (Option Direction)}
    {pivot : Cell} :
    ∀ {l : List Direction} {d : Direction} {c : Cell},
      scanDirs p skip pivot l = some (d, c) → p.is_valid c := by
  intro l
  induction l with
  | nil =>
    intro d c h
    simp [scanDirs] at h
  | cons d0 ds ih =>
    intro d c h
    rw [scanDirs] at h
    split at h
    · exact ih h
    · split at h
      · rename_i hv
        simp only [Option.some.injEq, Prod.mk.injEq] at h
        obtain ⟨-, h2⟩ := h
        subst h2
        exact hv
      · exact ih h

/-- C2 (amended): every cell `select_target` returns is added to the
tracker before the call returns, and in every branch except the
continue-probe flip branch (where the source performs no validity check)
it is in-bounds and was not in the tracker before the call. -/
theorem C2_select_target_validity (p : AutomaticPlayer) (stream : List Nat)
    (c : Cell) (p' : AutomaticPlayer) (rest : List Nat)
    (hw : 0 < p.board_width) (hh : 0 < p.board_height)
    (h : p.select_target stream = SelectOut.ok c p' rest) :
    p'.tracker = setAdd p.tracker c ∧ c ∈ p'.tracker ∧
    (flipCase p = true ∨
      (c ∉ p.tracker ∧ inBoard p.board_width p.board_height c)) := by
  have mem_new : ∀ {t : List Cell}, c ∈ setAdd t c :=
    fun {t} => mem_setAdd.mpr (Or.inl rfl)
  unfold AutomaticPlayer.select_target at h
  by_cases hemp : p.tracker.isEmpty
  · rw [if_pos hemp] at h
    cases hg : generate_random_target p.board_width p.board_height
        p.tracker stream with
    | none =>
      rw [hg] at h
      exact absurd h (by simp)
    | some pr =>
      obtain ⟨c0, r0⟩ := pr
      rw [hg] at h
      injection h with h1 h2 h3
      subst h1
      subst h2
      exact ⟨rfl, mem_new,
        Or.inr ⟨(grt_spec stream hg).1, (grt_spec stream hg).2 hw hh⟩⟩
  · rw [if_neg hemp] at h
    by_cases hs2 : p.prev_result.2
    · rw [if_pos hs2] at h
      cases hg : generate_random_target p.board_width p.board_height
          p.tracker stream with
      | none =>
        rw [hg] at h
        exact absurd h (by simp)
      | some pr =>
        obtain ⟨c0, r0⟩ := pr
        rw [hg] at h
        injection h with h1 h2 h3
        subst h1
        subst h2
        exact ⟨rfl, mem_new,
          Or.inr ⟨(grt_spec stream hg).1, (grt_spec stream hg).2 hw hh⟩⟩
    · rw [if_neg hs2] at h
      by_cases hs1 : p.prev_result.1
      · rw [if_pos hs1] at h
        cases htarget : p.target with
        | none =>
          rw [htarget] at h
          dsimp only at h
          cases hpm : p.prev_move with
          | none =>
            rw [hpm] at h
            exact absurd h (by simp)
          | some pm =>
            rw [hpm] at h
            dsimp only at h
            cases hscan : scanDirs p [] pm dirOrder with
            | none =>
              rw [hscan] at h
              exact absurd h (by simp)
            | some pr =>
              obtain ⟨d0, c0⟩ := pr
              rw [hscan] at h
              injection h with h1 h2 h3
              subst h1
              subst h2
              have hv := scanDirs_some hscan
              exact ⟨rfl, mem_new, Or.inr ⟨hv.1, hv.2⟩⟩
        | some t =>
          rw [htarget] at h
          dsimp only at h
          cases hpm : p.prev_move with
          | none =>
            rw [hpm] at h
            exact absurd h (by simp)
          | some pm =>
            rw [hpm] at h
            cases hd : p.direction with
            | none =>
              rw [hd] at h
              exact absurd h (by simp)
            | some d =>
              rw [hd] at h
              dsimp only at h
              by_cases hv : p.is_valid (moveDir d pm)
              · rw [if_pos hv] at h
                injection h with h1 h2 h3
                subst h1
                subst h2
                exact ⟨rfl, mem_new, Or.inr ⟨hv.1, hv.2⟩⟩
              · rw [if_neg hv] at h
                injection h with h1 h2 h3
                subst h1
                subst h2
                refine ⟨rfl, mem_new, Or.inl ?_⟩
                have b1 : p.tracker.isEmpty = false := by
                  cases hb : p.tracker.isEmpty
                  · rfl
                  · exact absurd hb hemp
                have b2 : p.prev_result.2 = false := by
                  cases hb : p.prev_result.2
                  · rfl
                  · exact absurd hb hs2
                unfold flipCase
                rw [htarget, hpm, hd]
                simp [b1, b2, hs1, hv]
      · rw [if_neg hs1] at h
        cases htarget : p.target with
        | some t =>
          rw [htarget] at h
          dsimp only at h
          cases hscan : scanDirs p
              (p.unsuccessful_directions ++ [p.direction]) t dirOrder with
          | none =>
            rw [hscan] at h
            exact absurd h (by simp)
          | some pr =>
            obtain ⟨d0, c0⟩ := pr
            rw [hscan] at h
            injection h with h1 h2 h3
            subst h1
            subst h2
            have hv := scanDirs_some hscan
            exact ⟨rfl, mem_new, Or.inr ⟨hv.1, hv.2⟩⟩
        | none =>
          rw [htarget] at h
          dsimp only at h
          cases hg : generate_random_target p.board_width p.board_height
              p.tracker stream with
          | none =>
            rw [hg] at h
            exact absurd h (by simp)
          | some pr =>
            obtain ⟨c0, r0⟩ := pr
            rw [hg] at h
            injection h with h1 h2 h3
            subst h1
            subst h2
            exact ⟨rfl, mem_new,
              Or.inr ⟨(grt_spec stream hg).1, (grt_spec stream hg).2 hw hh⟩⟩

/-- C2 witness: the amended theorem at the fresh 10 × 10 player with
rolls [0,0], which selects (1,1). -/
theorem C2_select_target_witness :
    c2w_post.tracker = setAdd (AutomaticPlayer.init 10 10).tracker (1, 1) ∧
    ((1, 1) : Cell) ∈ c2w_post.tracker ∧
    (flipCase (AutomaticPlayer.init 10 10) = true ∨
      (((1, 1) : Cell) ∉ (AutomaticPlayer.init 10 10).tracker ∧
       inBoard (AutomaticPlayer.init 10 10).board_width
         (AutomaticPlayer.init 10 10).board_height (1, 1))) :=
  C2_select_target_validity (AutomaticPlayer.init 10 10) [0, 0] (1, 1)
    c2w_post [] (by decide) (by decide) (by decide)

/-! ### Claim C3: geometry and invariants of fleet generation -/

theorem randint_some {a b : Int} {r : Nat} {v : Int}
    (h : randint a b r = some v) : a ≤ v ∧ v ≤ b := by
  unfold randint at h
  split at h
  · exact absurd h (by simp)
  · rename_i hba
    simp only [Option.some.injEq] at h
    subst h
    have hpos : 0 < b - a + 1 := by omega
    have e1 : 0 ≤ (r : Int) % (b - a + 1) := Int.emod_nonneg _ (by omega)
    have e2 : (r : Int) % (b - a + 1) < b - a + 1 := Int.emod_lt_of_pos _ hpos
    omega

theorem cells_inBoard {w h : Int} {b : Ship} (hb : GoodShip w h b)
    {c : Cell} (hc : c ∈ b.get_cells) : inBoard w h c := by
  obtain ⟨h1, h2, hal, h3, h4, h5, h6⟩ := hb
  rw [mem_get_cells h1 h2 hal] at hc
  exact ⟨by omega, by omega, by omega, by omega⟩

theorem near_ship_iff {a b : Ship}
    (hax : a.x_start ≤ a.x_end) (hay : a.y_start ≤ a.y_end)
    (hbx : b.x_start ≤ b.x_end) (hby : b.y_start ≤ b.y_end)
    (hbal : b.x_start = b.x_end ∨ b.y_start = b.y_end) :
    a.is_near_ship b ↔
      (a.x_start - 1 ≤ b.x_end ∧ b.x_start ≤ a.x_end + 1 ∧
       a.y_start - 1 ≤ b.y_end ∧ b.y_start ≤ a.y_end + 1) := by
  unfold Ship.is_near_ship Ship.is_near_cell
  constructor
  · rintro ⟨c, hc, hn⟩
    rw [mem_get_cells hbx hby hbal] at hc
    omega
  · rintro ⟨k1, k2, k3, k4⟩
    refine ⟨(max b.x_start (a.x_start - 1), max b.y_start (a.y_start - 1)),
      ?_, ?_⟩
    · rw [mem_get_cells hbx hby hbal]
      constructor
      · exact le_max_left _ _
      constructor
      · simp only
        omega
      constructor
      · exact le_max_left _ _
      · simp only
        omega
    · refine ⟨?_, ?_, ?_, ?_⟩ <;> · simp only; omega

theorem near_ship_symm {w h : Int} {a b : Ship}
    (ha : GoodShip w h a) (hb : GoodShip w h b) :
    a.is_near_ship b ↔ b.is_near_ship a := by
  obtain ⟨a1, a2, aal, -, -, -, -⟩ := ha
  obtain ⟨b1, b2, bal, -, -, -, -⟩ := hb
  rw [near_ship_iff a1 a2 b1 b2 bal, near_ship_iff b1 b2 a1 a2 aal]
  omega

/-- The crucial halo fact: on a board no wider or taller than 10, after
`update_forbidden_cells` a well-shaped accepted ship is fully protected —
every in-board cell near it is forbidden, despite the hard-coded clip
constants. -/
theorem update_forbidden_protects {w h : Int} (hw10 : w ≤ 10) (hh10 : h ≤ 10)
    (f : ShipFactory) {a : Ship} (ha : GoodShip w h a) :
    ProtectedShip w h a (f.update_forbidden_cells a).forbidden_cells := by
  obtain ⟨h1, h2, hal, h3, h4, h5, h6⟩ := ha
  refine ⟨fun c hc => update_forbidden_sub_cells f a hc, fun c hcb hnear => ?_⟩
  obtain ⟨k1, k2, k3, k4⟩ := hcb
  obtain ⟨n1, n2, n3, n4⟩ := hnear
  rw [update_forbidden_eq, mem_setUnion, mem_setUnion]
  by_cases hH : a.is_horizontal
  · rw [if_pos hH]
    unfold Ship.is_horizontal at hH
    right
    rw [mem_flatMap_rowTriple]
    omega
  · rw [if_neg hH]
    unfold Ship.is_horizontal at hH
    right
    rw [mem_flatMap_colTriple]
    omega

theorem Ship.init_aligned {st en : Cell} (hal : st.1 = en.1 ∨ st.2 = en.2) :
    Ship.init st en true = some (mkShipRaw st en) := by
  have e : Ship.init st en true
      = if true = true ∧ ¬(mkShipRaw st en).is_horizontal
            ∧ ¬(mkShipRaw st en).is_vertical
        then none else some (mkShipRaw st en) := rfl
  rw [e, if_neg]
  rintro ⟨-, hH, hV⟩
  unfold Ship.is_horizontal at hH
  unfold Ship.is_vertical at hV
  unfold mkShipRaw at hH hV
  dsimp only at hH hV
  omega

theorem init_of_sample (len sc oc : Int) (d : Nat) :
    Ship.init (create_ship_input len d sc oc).1
        (create_ship_input len d sc oc).2 true
      = some (mkShipRaw (create_ship_input len d sc oc).1
          (create_ship_input len d sc oc).2) := by
  apply Ship.init_aligned
  unfold create_ship_input
  by_cases hd : d = 0
  · simp [hd]
  · simp [hd]

theorem goodShip_of_sample {w h len sc oc : Int} (d : Nat) (hlen : 1 ≤ len)
    (hsc1 : 1 ≤ sc) (hsc2 : sc ≤ (if d = 0 then w else h) - len + 1)
    (hoc1 : 1 ≤ oc) (hoc2 : oc ≤ (if d = 0 then h else w)) :
    GoodShip w h (mkShipRaw (create_ship_input len d sc oc).1
      (create_ship_input len d sc oc).2) := by
  unfold create_ship_input
  by_cases hd : d = 0
  · simp only [if_pos hd] at hsc2 hoc2 ⊢
    unfold GoodShip mkShipRaw
    dsimp only
    omega
  · simp only [if_neg hd] at hsc2 hoc2 ⊢
    unfold GoodShip mkShipRaw
    dsimp only
    omega

theorem create_ship_succ_eq (f : ShipFactory) (len : Int) (n r1 r2 r3 : Nat)
    (rest : List Nat) :
    f.create_ship len (n + 1) (r1 :: r2 :: r3 :: rest)
      = match randint 1
            ((if r1 % 2 = 0 then f.board_size.1 else f.board_size.2) - len + 1)
            r2,
          randint 1 (if r1 % 2 = 0 then f.board_size.2 else f.board_size.1)
            r3 with
        | some sc, some oc =>
          (match Ship.init (create_ship_input len (r1 % 2) sc oc).1
              (create_ship_input len (r1 % 2) sc oc).2 true with
           | some ship =>
             if ∃ c ∈ ship.get_cells, c ∈ f.forbidden_cells then
               f.create_ship len n rest
             else some (ship, f.update_forbidden_cells ship, rest)
           | none => none)
        | _, _ => none := rfl

theorem create_ship_inv {w h len : Int} (hw10 : w ≤ 10) (hh10 : h ≤ 10)
    (hlen : 1 ≤ len) :
    ∀ (fuel : Nat) (stream : List Nat) (f : ShipFactory) (ships : List Ship),
      f.board_size = (w, h) → GenInv w h ships f.forbidden_cells →
      ∀ {b : Ship} {f' : ShipFactory} {rest : List Nat},
        f.create_ship len fuel stream = some (b, f', rest) →
        GenInv w h (ships ++ [b]) f'.forbidden_cells ∧
        f'.board_size = (w, h) ∧
        f'.ships_per_length = f.ships_per_length := by
  intro fuel
  induction fuel with
  | zero =>
    intro stream f ships hb hinv b f' rest hcr
    exact absurd hcr (by simp [ShipFactory.create_ship])
  | succ n ih =>
    intro stream f ships hb hinv b f' rest hcr
    match stream with
    | [] => exact absurd hcr (by simp [ShipFactory.create_ship])
    | [_] => exact absurd hcr (by simp [ShipFactory.create_ship])
    | [_, _] => exact absurd hcr (by simp [ShipFactory.create_ship])
    | r1 :: r2 :: r3 :: rest0 =>
      rw [create_ship_succ_eq] at hcr
      cases hsc : randint 1
          ((if r1 % 2 = 0 then f.board_size.1 else f.board_size.2) - len + 1)
          r2 with
      | none =>
        rw [hsc] at hcr
        cases hoc : randint 1
            (if r1 % 2 = 0 then f.board_size.2 else f.board_size.1) r3 with
        | none => rw [hoc] at hcr; simp at hcr
        | some oc => rw [hoc] at hcr; simp at hcr
      | some sc =>
        rw [hsc] at hcr
        cases hoc : randint 1
            (if r1 % 2 = 0 then f.board_size.2 else f.board_size.1) r3 with
        | none => rw [hoc] at hcr; simp at hcr
        | some oc =>
          rw [hoc] at hcr
          dsimp only at hcr
          rw [init_of_sample] at hcr
          dsimp only at hcr
          by_cases hex : ∃ c ∈ (mkShipRaw (create_ship_input len (r1 % 2) sc oc).1
              (create_ship_input len (r1 % 2) sc oc).2).get_cells,
              c ∈ f.forbidden_cells
          · rw [if_pos hex] at hcr
            exact ih rest0 f ships hb hinv hcr
          · rw [if_neg hex] at hcr
            simp only [Option.some.injEq, Prod.mk.injEq] at hcr
            obtain ⟨hb1, hb2, -⟩ := hcr
            subst hb1
            subst hb2
            rw [hb] at hsc hoc
            have hscb := randint_some hsc
            have hocb := randint_some hoc
            have hgood : GoodShip w h (mkShipRaw
                (create_ship_input len (r1 % 2) sc oc).1
                (create_ship_input len (r1 % 2) sc oc).2) := by
              apply goodShip_of_sample (r1 % 2) hlen hscb.1 ?_ hocb.1 ?_
              · by_cases hd : r1 % 2 = 0
                · simpa [hd] using hscb.2
                · simpa [hd] using hscb.2
              · by_cases hd : r1 % 2 = 0
                · simpa [hd] using hocb.2
                · simpa [hd] using hocb.2
            set b0 := mkShipRaw (create_ship_input len (r1 % 2) sc oc).1
                (create_ship_input len (r1 % 2) sc oc).2 with hb0
            have hfresh : ∀ c ∈ b0.get_cells, c ∉ f.forbidden_cells :=
              fun c hc hcf => hex ⟨c, hc, hcf⟩
            obtain ⟨hShips, hPw⟩ := hinv
            refine ⟨⟨?_, ?_⟩, hb, rfl⟩
            · intro a hA
              rcases List.mem_append.mp hA with hA | hA
              · obtain ⟨hg, hp⟩ := hShips a hA
                exact ⟨hg, fun c hc => update_forbidden_mono f b0 (hp.1 c hc),
                       fun c hcb hn => update_forbidden_mono f b0 (hp.2 c hcb hn)⟩
              · rw [List.mem_singleton] at hA
                subst hA
                exact ⟨hgood, update_forbidden_protects hw10 hh10 f hgood⟩
            · rw [List.pairwise_append]
              refine ⟨hPw, by simp, ?_⟩
              intro a hA b' hB'
              rw [List.mem_singleton] at hB'
              subst hB'
              obtain ⟨hgA, hpA⟩ := hShips a hA
              have hnotnear : ¬a.is_near_ship b0 := by
                rintro ⟨c, hcB, hn⟩
                exact hfresh c hcB (hpA.2 c (cells_inBoard hgood hcB) hn)
              refine ⟨?_, hnotnear, ?_⟩
              · intro c hc hcB
                exact hfresh c hcB (hpA.1 c hc)
              · rw [near_ship_symm hgood hgA]
                exact hnotnear

theorem create_count_inv {w h len : Int} (hw10 : w ≤ 10) (hh10 : h ≤ 10)
    (hlen : 1 ≤ len) :
    ∀ (count fuel : Nat) (stream : List Nat) (f : ShipFactory)
      (ships : List Ship),
      f.board_size = (w, h) → GenInv w h ships f.forbidden_cells →
      ∀ {out : List Ship} {f' : ShipFactory} {rest : List Nat},
        f.create_count len count fuel stream = some (out, f', rest) →
        GenInv w h (ships ++ out) f'.forbidden_cells ∧
        f'.board_size = (w, h) ∧
        f'.ships_per_length = f.ships_per_length := by
  intro count
  induction count with
  | zero =>
    intro fuel stream f ships hb hinv out f' rest hcc
    have e : f.create_count len 0 fuel stream = some ([], f, stream) := rfl
    rw [e] at hcc
    simp only [Option.some.injEq, Prod.mk.injEq] at hcc
    obtain ⟨h1, h2, -⟩ := hcc
    subst h1
    subst h2
    exact ⟨by simpa using hinv, hb, rfl⟩
  | succ cnt ih =>
    intro fuel stream f ships hb hinv out f' rest hcc
    have e : f.create_count len (cnt + 1) fuel stream
        = match f.create_ship len fuel stream with
          | some (ship, f1, rest1) =>
            (match f1.create_count len cnt fuel rest1 with
             | some (ships1, f2, rest2) => some (ship :: ships1, f2, rest2)
             | none => none)
          | none => none := rfl
    rw [e] at hcc
    cases hcs : f.create_ship len fuel stream with
    | none => rw [hcs] at hcc; simp at hcc
    | some v =>
      obtain ⟨b, f1, rest1⟩ := v
      rw [hcs] at hcc
      dsimp only at hcc
      obtain ⟨hinv1, hb1, hsp1⟩ :=
        create_ship_inv hw10 hh10 hlen fuel stream f ships hb hinv hcs
      cases hcc2 : f1.create_count len cnt fuel rest1 with
      | none => rw [hcc2] at hcc; simp at hcc
      | some v2 =>
        obtain ⟨ships1, f2, rest2⟩ := v2
        rw [hcc2] at hcc
        simp only [Option.some.injEq, Prod.mk.injEq] at hcc
        obtain ⟨ho, hf2, -⟩ := hcc
        subst ho
        subst hf2
        obtain ⟨hinv2, hb2, hsp2⟩ :=
          ih fuel rest1 f1 (ships ++ [b]) hb1 hinv1 hcc2
        refine ⟨?_, hb2, hsp2.trans hsp1⟩
        rw [List.append_assoc] at hinv2
        simpa using hinv2

theorem generate_spec_inv {w h : Int} (hw10 : w ≤ 10) (hh10 : h ≤ 10) :
    ∀ (spec : List (Int × Nat)), (∀ lc ∈ spec, 1 ≤ lc.1) →
    ∀ (fuel : Nat) (stream : List Nat) (f : ShipFactory) (ships : List Ship),
      f.board_size = (w, h) → GenInv w h ships f.forbidden_cells →
      ∀ {out : List Ship} {f' : ShipFactory} {rest : List Nat},
        f.generate_spec spec fuel stream = some (out, f', rest) →
        GenInv w h (ships ++ out) f'.forbidden_cells ∧
        f'.board_size = (w, h) := by
  intro spec
  induction spec with
  | nil =>
    intro hlens fuel stream f ships hb hinv out f' rest hg
    have e : f.generate_spec [] fuel stream = some ([], f, stream) := rfl
    rw [e] at hg
    simp only [Option.some.injEq, Prod.mk.injEq] at hg
    obtain ⟨h1, h2, -⟩ := hg
    subst h1
    subst h2
    simpa using ⟨hinv, hb⟩
  | cons lc spec ih =>
    obtain ⟨len, count⟩ := lc
    intro hlens fuel stream f ships hb hinv out f' rest hg
    have e : f.generate_spec ((len, count) :: spec) fuel stream
        = match f.create_count len count fuel stream with
          | some (ships1, f1, rest1) =>
            (match f1.generate_spec spec fuel rest1 with
             | some (ships2, f2, rest2) => some (ships1 ++ ships2, f2, rest2)
             | none => none)
          | none => none := rfl
    rw [e] at hg
    cases hcc : f.create_count len count fuel stream with
    | none => rw [hcc] at hg; simp at hg
    | some v =>
      obtain ⟨ships1, f1, rest1⟩ := v
      rw [hcc] at hg
      dsimp only at hg
      have hlen : 1 ≤ len := hlens (len, count) (by simp)
      obtain ⟨hinv1, hb1, -⟩ :=
        create_count_inv hw10 hh10 hlen count fuel stream f ships hb hinv hcc
      cases hg2 : f1.generate_spec spec fuel rest1 with
      | none => rw [hg2] at hg; simp at hg
      | some v2 =>
        obtain ⟨ships2, f2, rest2⟩ := v2
        rw [hg2] at hg
        simp only [Option.some.injEq, Prod.mk.injEq] at hg
        obtain ⟨ho, hf2, -⟩ := hg
        subst ho
        subst hf2
        obtain ⟨hinv2, hb2⟩ :=
          ih (fun lc hlc => hlens lc (List.mem_cons_of_mem _ hlc)) fuel rest1
            f1 (ships ++ ships1) hb1 hinv1 hg2
        refine ⟨?_, hb2⟩
        rw [List.append_assoc] at hinv2
        exact hinv2

/-- C3 (amended): for boards of width and height between 1 and 10 and a
specification whose ship lengths are positive, every fleet returned by
`generate_ships` has pairwise-disjoint occupied cells and no two ships
near each other, so fleet validation raises no error.  (For wider or
taller boards the hard-coded halo clipping breaks this — see the
counterexample.) -/
theorem C3_generate_ships_separated (f : ShipFactory) (w h : Int)
    (hb : f.board_size = (w, h)) (hw10 : w ≤ 10) (hh10 : h ≤ 10)
    (hlens : ∀ lc ∈ f.ships_per_length, 1 ≤ lc.1)
    (fuel : Nat) (stream : List Nat) (ships : List Ship) (rest : List Nat)
    (hgen : f.generate_ships fuel stream = some (ships, rest)) :
    validateFleet ships := by
  have e : f.generate_ships fuel stream
      = match f.generate_spec f.ships_per_length fuel stream with
        | some (out, _, rest1) => some (out, rest1)
        | none => none := rfl
  rw [e] at hgen
  cases hg0 : f.generate_spec f.ships_per_length fuel stream with
  | none => rw [hg0] at hgen; simp at hgen
  | some v =>
    obtain ⟨out, f', rest0⟩ := v
    rw [hg0] at hgen
    simp only [Option.some.injEq, Prod.mk.injEq] at hgen
    obtain ⟨h1, -⟩ := hgen
    subst h1
    have hinv0 : GenInv w h [] f.forbidden_cells :=
      ⟨fun a ha => absurd ha (List.not_mem_nil a), List.Pairwise.nil⟩
    obtain ⟨hinv, -⟩ :=
      generate_spec_inv hw10 hh10 f.ships_per_length hlens fuel stream f []
        hb hinv0 hg0
    simpa [validateFleet] using hinv.2

/-- C3 counterexample: on an 11 × 11 board with specification `{1: 2}`,
the rolls below make `generate_ships` return two length-1 ships at
(5,10) and (5,11), which are near each other — the hard-coded halo
clipping at row 10 fails to protect row 11, so the fleet invariant is
violated for that board size. -/
theorem C3_near_ships_cex :
    ShipFactory.generate_ships ⟨(11, 11), [], [(1, 2)]⟩ 5 [0, 4, 9, 0, 4, 10]
      = some ([⟨5, 10, 5, 10, []⟩, ⟨5, 11, 5, 11, []⟩], []) ∧
    Ship.is_near_ship ⟨5, 10, 5, 10, []⟩ ⟨5, 11, 5, 11, []⟩ ∧
    ¬validateFleet [⟨5, 10, 5, 10, []⟩, ⟨5, 11, 5, 11, []⟩] := by
  decide

/-- C3 witness: the amended theorem at a fresh default factory with one
length-1 ship. -/
theorem C3_generate_ships_witness :
    validateFleet [⟨1, 1, 1, 1, []⟩] :=
  C3_generate_ships_separated ⟨(10, 10), [], [(1, 1)]⟩ 10 10 rfl
    (by decide) (by decide) (by decide) 1 [0, 0, 0] [⟨1, 1, 1, 1, []⟩] []
    (by decide)
